import Mathlib

/-!
A shallow embedding of the static-site rollout script `deploy.py`:
the snapshot store (`backup_current_version` / `rollback`), the content
publisher (`deploy_files`), the health verifier (`health_check`), the
static server start-up (`start_server`), the response-header injection
of the request handler (`end_headers`), and the rollout controller
(`main`).  File-system trees are modelled as finite association lists
of named entries; I/O faults (copy errors, bind errors, HTTP outcomes)
are supplied as explicit environment parameters so that every code
path of the script is reachable in the model.
-/

namespace Deploy

/-- A file-system entry: a file with byte contents, or a directory with
named children.  Equality of two entries is exactly "same set of relative
paths with byte-for-byte identical file contents" (in listing order). -/
inductive FsEntry where
  | file (contents : List Nat)
  | dir (children : List (String × FsEntry))

/-- The listing of a directory: named entries in listing order. -/
abbrev Dir := List (String × FsEntry)

/-- Constant `BACKUP_DIR = 'deploy_backups'` from deploy.py. -/
def BACKUP_DIR : String := "deploy_backups"

/-- Log severities used by the script (`logging` levels). -/
inductive Severity where
  | info
  | warning
  | error
  | critical
deriving DecidableEq, Repr

/-- One log line: a severity and a message. -/
structure LogLine where
  sev : Severity
  msg : String
deriving DecidableEq, Repr

/-- Look up the entry of a given name in a directory listing
(the file system has at most one entry per name; we take the first). -/
def getEntry (d : Dir) (name : String) : Option FsEntry :=
  (d.find? (fun p => p.1 = name)).map Prod.snd

/-- Replace (or create) the entry of a given name: any existing entry of
that name is removed and the new entry installed.  This is the net effect
of `shutil.copy2` over an existing file and of `shutil.rmtree` followed by
`shutil.copytree` over an existing directory: full replacement, no merge. -/
def setEntry (d : Dir) (name : String) (e : FsEntry) : Dir :=
  d.filter (fun p => !(p.1 = name : Bool)) ++ [(name, e)]

/-- `backup_current_version(config)` from deploy.py: if the content root
exists and `os.listdir` is non-empty, copy it to
`deploy_backups/backup_<timestamp>` and return that path; else return
`None`.  The backup store is the association of backup paths to the
copied trees; the content root is `none` when the directory is absent. -/
def backup_current_version (timestamp : String) (root : Option Dir)
    (store : List (String × Dir)) : Option String × List (String × Dir) :=
  match root with
  | some cs =>
      if cs.isEmpty then (none, store)
      else
        ((some (BACKUP_DIR ++ "/backup_" ++ timestamp)),
          (BACKUP_DIR ++ "/backup_" ++ timestamp, cs) :: store)
  | none => (none, store)

/-- Look up a backup tree by its path in the backup store. -/
def lookupStore (store : List (String × Dir)) (p : String) : Option Dir :=
  (store.find? (fun q => q.1 = p)).map Prod.snd

/-- Result of one `rollback` call: the content root afterwards, the log
lines emitted, and whether an exception propagated out of the function. -/
structure RollbackResult where
  root : Option Dir
  log : List LogLine
  raised : Bool

/-- `rollback(backup_path, config)` from deploy.py.  With no backup path
it logs a warning and returns, leaving the root untouched.  Otherwise it
removes the content root (`shutil.rmtree`) and copies the backup back
(`shutil.copytree`); the whole block is wrapped in `try/except`, so a
copy failure (modelled by `copyFails`, and also arising when the backup
path is not in the store) is logged at `critical` and the function
returns normally — `raised` records whether anything escaped, and it is
`false` on every path. -/
def rollback (backup_path : Option String) (store : List (String × Dir))
    (root : Option Dir) (copyFails : Bool) : RollbackResult :=
  match backup_path with
  | none => ⟨root, [⟨Severity.warning, "No backup path provided for rollback."⟩], false⟩
  | some p =>
      if copyFails then
        ⟨none,
         [⟨Severity.warning, "Initiating ROLLBACK..."⟩,
          ⟨Severity.critical, "Rollback failed"⟩], false⟩
      else
        match lookupStore store p with
        | some snap =>
            ⟨some snap,
             [⟨Severity.warning, "Initiating ROLLBACK..."⟩,
              ⟨Severity.info, "Rollback successful."⟩], false⟩
        | none =>
            ⟨none,
             [⟨Severity.warning, "Initiating ROLLBACK..."⟩,
              ⟨Severity.critical, "Rollback failed"⟩], false⟩

/-- The exclusion list of `deploy_files`: the content root itself, the
backup directory, version-control and tooling entries. -/
def excludes (root_dir : String) : List String :=
  [root_dir, BACKUP_DIR, ".git", ".vscode", "__pycache__", "deploy.log",
   "deploy.py", "deploy_config.json", "deploy_to_github.ps1",
   "mirror_script.py", "summon_demon.ps1"]

/-- `item.startswith('.')`: the name begins with the hidden-entry
marker, i.e. its first character is `'.'`. -/
def startsWithDot (name : String) : Bool :=
  match name.data with
  | [] => false
  | c :: _ => c = '.'

/-- An entry is kept (copied) iff its name is not in the exclusion list
and does not start with `'.'` — the guard
`if item in excludes or item.startswith('.'): continue` of deploy.py. -/
def keptName (root_dir name : String) : Bool :=
  !(decide (name ∈ excludes root_dir) || startsWithDot name)

/-- A raw I/O error as raised by `shutil`: it identifies the path that
failed and carries nothing else (in particular, no copy count). -/
inductive OsError where
  | oserror (path : String)
deriving DecidableEq, Repr

/-- Outcome of `deploy_files`: normal completion with the new content
root, the Python return value (`deploy_files` has no `return` statement,
so this is always `none`) and the count logged by
`logger.info("Deployed {count} items ...")`; or an uncaught `OsError`
with the content root as left at that moment. -/
inductive DeployOutcome where
  | ok (root : Dir) (ret : Option Nat) (loggedCount : Nat)
  | err (root : Dir) (e : OsError)

/-- The copy loop of `deploy_files`: walk the source listing in order;
skip excluded and hidden names; copy each kept entry into the root
(full replacement) and increment `count`.  A copy fault on a kept name
(environment `failOn`) aborts the loop with the raw error; the failing
entry is not installed. -/
def deployLoop (root_dir : String) (failOn : String → Bool) :
    List (String × FsEntry) → Dir → Nat → Except (Dir × String) (Dir × Nat)
  | [], root, count => Except.ok (root, count)
  | (name, e) :: rest, root, count =>
      if keptName root_dir name then
        if failOn name then Except.error (root, name)
        else deployLoop root_dir failOn rest (setEntry root name e) (count + 1)
      else deployLoop root_dir failOn rest root count

/-- `deploy_files(config)` from deploy.py, parametrised by the source
listing (`os.listdir('.')`), the configured content-root name, the
current content root and the copy-fault environment. -/
def deploy_files (items : List (String × FsEntry)) (root_dir : String)
    (root : Dir) (failOn : String → Bool) : DeployOutcome :=
  match deployLoop root_dir failOn items root 0 with
  | Except.ok (r, c) => DeployOutcome.ok r none c
  | Except.error (r, n) => DeployOutcome.err r (OsError.oserror n)

/-- The cumulative effect of copying the kept entries of a listing into
a root, in listing order. -/
def publishFold (root_dir : String) (root : Dir)
    (items : List (String × FsEntry)) : Dir :=
  items.foldl (fun r p => if keptName root_dir p.1 then setEntry r p.1 p.2 else r) root

/-- Outcome of one GET attempt of `health_check`: the request completed
with some HTTP status code, or it raised (timeout, connection refused, ...). -/
inductive AttemptOutcome where
  | status (code : Nat)
  | exn
deriving DecidableEq, Repr

/-- The retry loop of `health_check`: `responses i` is the outcome the
environment gives the `(i+1)`-th GET.  The pair returned is the boolean
result together with the number of GET attempts actually issued.  A 200
returns `True` at once; any other status and any exception is logged
(the bare `except` clause) and the loop continues after the fixed
1-second sleep. -/
def healthLoop (responses : Nat → AttemptOutcome) : Nat → Nat → Bool × Nat
  | i, 0 => (false, i)
  | i, fuel + 1 =>
      match responses i with
      | AttemptOutcome.status code =>
          if code = 200 then (true, i + 1)
          else healthLoop responses (i + 1) fuel
      | AttemptOutcome.exn => healthLoop responses (i + 1) fuel

/-- `health_check(config)` from deploy.py: `for i in range(retries)`
around single GET attempts; returns `False` once the attempts are
exhausted.  Exceptions never escape: the function is total over every
response environment. -/
def health_check (responses : Nat → AttemptOutcome) (retries : Nat) : Bool × Nat :=
  healthLoop responses 0 retries

/-- A running server: the bound address and the directory it serves. -/
structure ServerHandle where
  host : String
  port : Nat
  root_dir : String
deriving DecidableEq, Repr

/-- The address `start_server` and `health_check` actually contact:
the configured host, with `0.0.0.0` replaced by the loopback address. -/
def probeHost (host : String) : String :=
  if host = "0.0.0.0" then "127.0.0.1" else host

/-- Result of `start_server`: the returned handle (`None` on failure),
the set of listening addresses afterwards, whether a bind
(`socketserver.TCPServer(...)`) was ever attempted, and the log. -/
structure StartResult where
  handle : Option ServerHandle
  listeners : List (String × Nat)
  bindAttempted : Bool
  log : List LogLine
deriving DecidableEq, Repr

/-- `start_server(config)` from deploy.py.  `listeners` is the set of
addresses on which some listener already accepts connections; the probe
`connect_ex` succeeds exactly when `(probeHost host, port)` is in it.
If the probe succeeds the function logs an error and returns `None`
without binding; otherwise it binds `(host, port)` (which the
environment may fail with an exception, `bindFails`) and serves on a
daemon thread. -/
def start_server (host : String) (port : Nat) (root_dir : String)
    (listeners : List (String × Nat)) (bindFails : Bool) : StartResult :=
  if (probeHost host, port) ∈ listeners then
    ⟨none, listeners, false, [⟨Severity.error, "Port is already in use."⟩]⟩
  else if bindFails then
    ⟨none, listeners, true, [⟨Severity.error, "Failed to start server"⟩]⟩
  else
    ⟨some ⟨host, port, root_dir⟩, (host, port) :: listeners, true,
     [⟨Severity.info, "Serving HTTP"⟩]⟩

/-- `SecureHTTPRequestHandler.end_headers`, acting on the buffered header
list of one response.  `security_headers` is `some hs` when the handler's
config is truthy and has a `'security'` key, `hs` being its
`.get('headers', {})` items in insertion order; each is appended to the
buffer with `send_header` before `super().end_headers()` flushes the
buffer.  `buffered` holds the default headers the base class wrote
earlier in the response (status line headers, `Content-type`, ...). -/
def end_headers (security_headers : Option (List (String × String)))
    (buffered : List (String × String)) : List (String × String) :=
  match security_headers with
  | some hs => buffered ++ hs
  | none => buffered

/-- The value a header-name lookup yields on a flushed header list when
later occurrences override earlier ones — the write order of the buffer,
where a header sent later overrides one sent earlier on collision. -/
def effectiveHeader (hs : List (String × String)) (name : String) : Option String :=
  (hs.reverse.find? (fun p => p.1 = name)).map Prod.snd

/-- The configuration record consumed by the rollout controller
(`config['server']`, `config['health_check']`). -/
structure Config where
  host : String
  port : Nat
  root_dir : String
  hc_retries : Nat

/-- The environment of one `main()` run: the wall clock, the source
listing, and the fault injections for each fallible operation. -/
structure Env where
  timestamp : String
  sourceItems : List (String × FsEntry)
  deployFailOn : String → Bool
  listeners : List (String × Nat)
  bindFails : Bool
  restoreCopyFails : Bool
  healthResponses : Nat → AttemptOutcome

/-- The observable stage transitions of one `main()` run, in order. -/
inductive StageEvent where
  | backedUp (path : Option String)
  | deployed (count : Nat)
  | deployFailed (e : OsError)
  | rollbackRun (path : String)
  | serverStarted
  | serverStartFailed
  | healthPassed
  | healthFailed
  | serverShutdown
deriving DecidableEq, Repr

/-- Result of one `main()` run: the process exit code, the final content
root, the final backup store, and the stage transitions taken. -/
structure MainResult where
  exitCode : Nat
  root : Option Dir
  store : List (String × Dir)
  events : List StageEvent

/-- `main()` from deploy.py.  `setup_environment` creates the content
root when absent (so the root is a directory from here on); then backup,
deploy (failure: rollback if a backup exists, exit 1), server start
(failure: exit 1 — the code only notes that rollback "could be applied
here too" and does not call it), health check (failure: shutdown, then
rollback if a backup exists, exit 1), and on success exit 0 after the
interrupt-driven shutdown. -/
def main (cfg : Config) (env : Env) (root0 : Option Dir)
    (store0 : List (String × Dir)) : MainResult :=
  let rootDir := root0.getD []
  let backup_path := (backup_current_version env.timestamp (some rootDir) store0).1
  let store1 := (backup_current_version env.timestamp (some rootDir) store0).2
  match deploy_files env.sourceItems cfg.root_dir rootDir env.deployFailOn with
  | DeployOutcome.err r e =>
      match backup_path with
      | some p =>
          ⟨1, (rollback (some p) store1 (some r) env.restoreCopyFails).root, store1,
           [StageEvent.backedUp (some p), StageEvent.deployFailed e,
            StageEvent.rollbackRun p]⟩
      | none =>
          ⟨1, some r, store1,
           [StageEvent.backedUp none, StageEvent.deployFailed e]⟩
  | DeployOutcome.ok r _ c =>
      match (start_server cfg.host cfg.port cfg.root_dir env.listeners env.bindFails).handle with
      | none =>
          ⟨1, some r, store1,
           [StageEvent.backedUp backup_path, StageEvent.deployed c,
            StageEvent.serverStartFailed]⟩
      | some _ =>
          if (health_check env.healthResponses cfg.hc_retries).1 then
            ⟨0, some r, store1,
             [StageEvent.backedUp backup_path, StageEvent.deployed c,
              StageEvent.serverStarted, StageEvent.healthPassed]⟩
          else
            match backup_path with
            | some p =>
                ⟨1, (rollback (some p) store1 (some r) env.restoreCopyFails).root, store1,
                 [StageEvent.backedUp (some p), StageEvent.deployed c,
                  StageEvent.serverStarted, StageEvent.healthFailed,
                  StageEvent.serverShutdown, StageEvent.rollbackRun p]⟩
            | none =>
                ⟨1, some r, store1,
                 [StageEvent.backedUp none, StageEvent.deployed c,
                  StageEvent.serverStarted, StageEvent.healthFailed,
                  StageEvent.serverShutdown]⟩

/-! ### Helper lemmas about directory listings -/

theorem find?_filter_ne (d : Dir) (name n : String) (h : ¬ n = name) :
    (d.filter (fun p => !(p.1 = name : Bool))).find? (fun p => (p.1 = n : Bool)) =
      d.find? (fun p => (p.1 = n : Bool)) := by
  induction d with
  | nil => rfl
  | cons q d ih =>
      by_cases hq : q.1 = name
      · have hqn : ¬ q.1 = n := fun hc => h (by rw [← hc, hq])
        rw [List.filter_cons_of_neg (by simp [hq]), ih,
          List.find?_cons_of_neg _ (by simp [hqn])]
      · by_cases hqn : q.1 = n
        · rw [List.filter_cons_of_pos (by simp [hq]),
            List.find?_cons_of_pos _ (by simp [hqn]),
            List.find?_cons_of_pos _ (by simp [hqn])]
        · rw [List.filter_cons_of_pos (by simp [hq]),
            List.find?_cons_of_neg _ (by simp [hqn]), ih,
            List.find?_cons_of_neg _ (by simp [hqn])]

theorem getEntry_setEntry_self (d : Dir) (name : String) (e : FsEntry) :
    getEntry (setEntry d name e) name = some e := by
  unfold getEntry setEntry
  rw [List.find?_append]
  have h1 : (d.filter (fun p => !(p.1 = name : Bool))).find?
      (fun p => (p.1 = name : Bool)) = none := by
    rw [List.find?_eq_none]
    intro p hp
    simpa using List.of_mem_filter hp
  rw [h1]
  simp

theorem getEntry_setEntry_ne (d : Dir) (name n : String) (e : FsEntry)
    (h : n ≠ name) :
    getEntry (setEntry d name e) n = getEntry d n := by
  unfold getEntry setEntry
  rw [List.find?_append, find?_filter_ne d name n h]
  have h1 : List.find? (fun p => (p.1 = n : Bool)) [(name, e)] = none := by
    simp
    intro hc
    exact h hc.symm
  rw [h1]
  cases List.find? (fun p => (p.1 = n : Bool)) d <;> rfl

theorem publishFold_cons (root_dir : String) (root : Dir)
    (p : String × FsEntry) (items : List (String × FsEntry)) :
    publishFold root_dir root (p :: items) =
      publishFold root_dir
        (if keptName root_dir p.1 then setEntry root p.1 p.2 else root) items := rfl

theorem getEntry_publishFold_not_kept (root_dir : String)
    (items : List (String × FsEntry)) (root : Dir) (name : String)
    (h : keptName root_dir name = false) :
    getEntry (publishFold root_dir root items) name = getEntry root name := by
  induction items generalizing root with
  | nil => rfl
  | cons p items ih =>
      rw [publishFold_cons]
      by_cases hk : keptName root_dir p.1
      · have hne : name ≠ p.1 := by
          intro hEq
          rw [← hEq] at hk
          rw [h] at hk
          exact absurd hk (by decide)
        rw [if_pos hk, ih]
        exact getEntry_setEntry_ne _ _ _ _ hne
      · rw [if_neg hk]; exact ih _

theorem getEntry_publishFold_not_mem (root_dir : String)
    (items : List (String × FsEntry)) (root : Dir) (name : String)
    (h : name ∉ items.map Prod.fst) :
    getEntry (publishFold root_dir root items) name = getEntry root name := by
  induction items generalizing root with
  | nil => rfl
  | cons p items ih =>
      have hne : name ≠ p.1 := fun hEq => h (by simp [hEq])
      have htail : name ∉ items.map Prod.fst := fun hc => h (by simp [hc])
      rw [publishFold_cons]
      by_cases hk : keptName root_dir p.1
      · rw [if_pos hk, ih _ htail]
        exact getEntry_setEntry_ne _ _ _ _ hne
      · rw [if_neg hk]; exact ih _ htail

theorem getEntry_publishFold_mem (root_dir : String)
    (items : List (String × FsEntry)) (name : String) (e : FsEntry)
    (hk : keptName root_dir name = true) :
    ∀ root : Dir, (items.map Prod.fst).Nodup → (name, e) ∈ items →
      getEntry (publishFold root_dir root items) name = some e := by
  induction items with
  | nil => intro root _ hmem; cases hmem
  | cons p items ih =>
      intro root hnd hmem
      rcases List.mem_cons.mp hmem with h1 | h1
      · rw [← h1] at hnd ⊢
        rw [publishFold_cons, if_pos hk,
          getEntry_publishFold_not_mem _ _ _ _ (by simpa using (List.nodup_cons.mp hnd).1)]
        exact getEntry_setEntry_self _ _ _
      · rw [publishFold_cons]
        exact ih _ (List.nodup_cons.mp hnd).2 h1

/-! ### Characterisation of the publish loop -/

theorem deployLoop_ok (root_dir : String) (failOn : String → Bool)
    (items : List (String × FsEntry)) (root : Dir) (count : Nat)
    (h : ∀ p ∈ items, keptName root_dir p.1 = true → failOn p.1 = false) :
    deployLoop root_dir failOn items root count =
      Except.ok (publishFold root_dir root items,
        count + (items.filter (fun p => keptName root_dir p.1)).length) := by
  induction items generalizing root count with
  | nil => simp [deployLoop, publishFold]
  | cons p items ih =>
      obtain ⟨name, e⟩ := p
      by_cases hk : keptName root_dir name
      · have hf : failOn name = false := h (name, e) (List.mem_cons_self _ _) hk
        rw [deployLoop, if_pos hk, hf]
        simp only [Bool.false_eq_true, if_false]
        rw [ih _ _ (fun q hq => h q (List.mem_cons_of_mem _ hq))]
        simp only [publishFold_cons, List.filter_cons, hk, if_true, List.length_cons]
        have harith :
            count + 1 + (items.filter (fun p => keptName root_dir p.1)).length =
              count + ((items.filter (fun p => keptName root_dir p.1)).length + 1) := by
          omega
        rw [harith]
      · rw [deployLoop, if_neg hk, ih _ _ (fun q hq => h q (List.mem_cons_of_mem _ hq))]
        simp only [publishFold_cons, List.filter_cons]
        rw [if_neg hk, if_neg (by simpa using hk)]

theorem deployLoop_err (root_dir : String) (failOn : String → Bool)
    (pre : List (String × FsEntry)) (name : String) (e : FsEntry)
    (post : List (String × FsEntry)) (root : Dir) (count : Nat)
    (hk : keptName root_dir name = true) (hf : failOn name = true)
    (hpre : ∀ p ∈ pre, keptName root_dir p.1 = true → failOn p.1 = false) :
    deployLoop root_dir failOn (pre ++ (name, e) :: post) root count =
      Except.error (publishFold root_dir root pre, name) := by
  induction pre generalizing root count with
  | nil => simp [deployLoop, hk, hf, publishFold]
  | cons q pre ih =>
      obtain ⟨qn, qe⟩ := q
      have htail : ∀ p ∈ pre, keptName root_dir p.1 = true → failOn p.1 = false :=
        fun p hp => hpre p (List.mem_cons_of_mem _ hp)
      by_cases hq : keptName root_dir qn
      · have hfq : failOn qn = false := hpre (qn, qe) (List.mem_cons_self _ _) hq
        rw [List.cons_append, deployLoop, if_pos hq, hfq]
        simp only [Bool.false_eq_true, if_false]
        rw [ih _ _ htail, publishFold_cons, if_pos hq]
      · rw [List.cons_append, deployLoop, if_neg hq, ih _ _ htail,
          publishFold_cons, if_neg hq]

/-! ### Characterisation of the health-check loop -/

theorem healthLoop_attempts_le (responses : Nat → AttemptOutcome) (fuel : Nat) :
    ∀ i : Nat, (healthLoop responses i fuel).2 ≤ i + fuel := by
  induction fuel with
  | zero => intro i; simp [healthLoop]
  | succ fuel ih =>
      intro i
      cases hr : responses i with
      | status code =>
          by_cases hc : code = 200
          · simp only [healthLoop, hr]
            rw [if_pos hc]
            omega
          · simp only [healthLoop, hr]
            rw [if_neg hc]
            have := ih (i + 1)
            omega
      | exn =>
          simp only [healthLoop, hr]
          have := ih (i + 1)
          omega

theorem healthLoop_true_iff (responses : Nat → AttemptOutcome) (fuel : Nat) :
    ∀ i : Nat, (healthLoop responses i fuel).1 = true ↔
      ∃ j, j < fuel ∧ responses (i + j) = AttemptOutcome.status 200 := by
  induction fuel with
  | zero =>
      intro i
      simp [healthLoop]
  | succ fuel ih =>
      intro i
      cases hr : responses i with
      | status code =>
          by_cases hc : code = 200
          · subst hc
            simp only [healthLoop, hr]
            rw [if_pos trivial]
            simp only [true_iff]
            exact ⟨0, Nat.succ_pos _, by simpa using hr⟩
          · simp only [healthLoop, hr]
            rw [if_neg hc]
            rw [ih (i + 1)]
            constructor
            · rintro ⟨j, hj, hs⟩
              exact ⟨j + 1, by omega, by rw [show i + (j + 1) = i + 1 + j from by omega]; exact hs⟩
            · rintro ⟨j, hj, hs⟩
              cases j with
              | zero =>
                  rw [Nat.add_zero] at hs
                  rw [hr] at hs
                  cases hs
                  exact absurd rfl hc
              | succ j =>
                  exact ⟨j, by omega,
                    by rw [show i + 1 + j = i + (j + 1) from by omega]; exact hs⟩
      | exn =>
          simp only [healthLoop, hr]
          rw [ih (i + 1)]
          constructor
          · rintro ⟨j, hj, hs⟩
            exact ⟨j + 1, by omega, by rw [show i + (j + 1) = i + 1 + j from by omega]; exact hs⟩
          · rintro ⟨j, hj, hs⟩
            cases j with
            | zero =>
                rw [Nat.add_zero, hr] at hs
                cases hs
            | succ j =>
                exact ⟨j, by omega, by rw [show i + 1 + j = i + (j + 1) from by omega]; exact hs⟩

theorem healthLoop_first_success (responses : Nat → AttemptOutcome) (fuel : Nat) :
    ∀ i k : Nat, k < fuel → responses (i + k) = AttemptOutcome.status 200 →
      (∀ j, j < k → responses (i + j) ≠ AttemptOutcome.status 200) →
      healthLoop responses i fuel = (true, i + k + 1) := by
  induction fuel with
  | zero => intro i k hk; omega
  | succ fuel ih =>
      intro i k hk hs hmin
      cases k with
      | zero =>
          rw [Nat.add_zero] at hs
          simp only [healthLoop, hs]
          rw [if_pos trivial, Nat.add_zero]
      | succ k =>
          have h0 : responses i ≠ AttemptOutcome.status 200 := by
            have := hmin 0 (Nat.succ_pos _)
            simpa using this
          have hrec := ih (i + 1) k (by omega)
            (by rw [show i + 1 + k = i + (k + 1) from by omega]; exact hs)
            (fun j hj => by
              rw [show i + 1 + j = i + (j + 1) from by omega]
              exact hmin (j + 1) (by omega))
          cases hr : responses i with
          | status code =>
              have hc : ¬ code = 200 := fun h => h0 (by rw [hr, h])
              simp only [healthLoop, hr]
              rw [if_neg hc, hrec]
              rw [show i + 1 + k + 1 = i + (k + 1) + 1 from by omega]
          | exn =>
              simp only [healthLoop, hr]
              rw [hrec]
              rw [show i + 1 + k + 1 = i + (k + 1) + 1 from by omega]

theorem healthLoop_all_fail (responses : Nat → AttemptOutcome) (fuel : Nat) :
    ∀ i : Nat, (∀ j, j < fuel → responses (i + j) ≠ AttemptOutcome.status 200) →
      healthLoop responses i fuel = (false, i + fuel) := by
  induction fuel with
  | zero => intro i _; simp [healthLoop]
  | succ fuel ih =>
      intro i hfail
      have h0 : responses i ≠ AttemptOutcome.status 200 := by
        have := hfail 0 (Nat.succ_pos _)
        simpa using this
      have hrec := ih (i + 1) (fun j hj => by
        rw [show i + 1 + j = i + (j + 1) from by omega]
        exact hfail (j + 1) (by omega))
      cases hr : responses i with
      | status code =>
          have hc : ¬ code = 200 := fun h => h0 (by rw [hr, h])
          simp only [healthLoop, hr]
          rw [if_neg hc, hrec]
          rw [show i + 1 + fuel = i + (fuel + 1) from by omega]
      | exn =>
          simp only [healthLoop, hr]
          rw [hrec]
          rw [show i + 1 + fuel = i + (fuel + 1) from by omega]

/-! ### Helper lemmas about header lists -/

theorem find?_eq_of_nodup_mem (l : List (String × String)) (n v : String)
    (hnd : (l.map Prod.fst).Nodup) (hmem : (n, v) ∈ l) :
    l.find? (fun p => (p.1 = n : Bool)) = some (n, v) := by
  induction l with
  | nil => cases hmem
  | cons q l ih =>
      rw [List.map_cons] at hnd
      rcases List.mem_cons.mp hmem with h1 | h1
      · rw [← h1]
        exact List.find?_cons_of_pos _ (by simp)
      · have hq : ¬ q.1 = n := by
          intro hc
          have hmemn : n ∈ l.map Prod.fst := List.mem_map.mpr ⟨(n, v), h1, rfl⟩
          rw [← hc] at hmemn
          exact (List.nodup_cons.mp hnd).1 hmemn
        rw [List.find?_cons_of_neg _ (by simp [hq])]
        exact ih (List.nodup_cons.mp hnd).2 h1

theorem effectiveHeader_append_mem (defaults hs : List (String × String))
    (n v : String) (hnd : (hs.map Prod.fst).Nodup) (hmem : (n, v) ∈ hs) :
    effectiveHeader (defaults ++ hs) n = some v := by
  unfold effectiveHeader
  rw [List.reverse_append, List.find?_append,
    find?_eq_of_nodup_mem hs.reverse n v
      (by rw [List.map_reverse]; exact List.nodup_reverse.mpr hnd)
      (List.mem_reverse.mpr hmem)]
  rfl

/-! ### Claim theorems -/

/-- Claim C3: for every non-empty content root, `capture`
(`backup_current_version`) returns a snapshot, and `restore` (`rollback`)
from that snapshot — from any intermediate content-root state, with the
copy step succeeding — reproduces the original content-root tree exactly
(the same entries with identical contents). -/
theorem capture_restore_roundtrip (timestamp : String) (cs : Dir)
    (store : List (String × Dir)) (curRoot : Option Dir) (h : cs ≠ []) :
    ((backup_current_version timestamp (some cs) store).1.isSome = true) ∧
    (rollback (backup_current_version timestamp (some cs) store).1
        (backup_current_version timestamp (some cs) store).2 curRoot false).root =
      some cs := by
  have hne : cs.isEmpty = false := by
    cases cs
    · exact absurd rfl h
    · rfl
  constructor
  · simp [backup_current_version, hne]
  · simp [backup_current_version, hne, rollback, lookupStore]

/-- Witness for C3 at a concrete one-file content root. -/
theorem capture_restore_roundtrip_witness :
    (rollback
        (backup_current_version "20240101_000000"
          (some [("index.html", FsEntry.file [104, 105])]) []).1
        (backup_current_version "20240101_000000"
          (some [("index.html", FsEntry.file [104, 105])]) []).2
        (some []) false).root = some [("index.html", FsEntry.file [104, 105])] :=
  (capture_restore_roundtrip "20240101_000000" _ [] (some [])
    (List.cons_ne_nil _ _)).2

/-- Claim C7: `capture` returns a snapshot path exactly when the content
root exists and is non-empty, the snapshot being a new timestamped entry
under the backups directory holding a copy of the tree; on an absent or
empty root it returns nothing (and no error: the function is total); and
`restore` with no snapshot is a no-op on the content root. -/
theorem capture_option_and_restore_noop (timestamp : String) (root : Option Dir)
    (store : List (String × Dir)) :
    ((backup_current_version timestamp root store).1.isSome = true ↔
        ∃ cs, root = some cs ∧ cs ≠ []) ∧
    (∀ cs, root = some cs → cs ≠ [] →
        backup_current_version timestamp root store =
          (some (BACKUP_DIR ++ "/backup_" ++ timestamp),
           (BACKUP_DIR ++ "/backup_" ++ timestamp, cs) :: store)) ∧
    (root = none → backup_current_version timestamp root store = (none, store)) ∧
    (root = some [] → backup_current_version timestamp root store = (none, store)) ∧
    (∀ curRoot cf, rollback none store curRoot cf =
        ⟨curRoot, [⟨Severity.warning, "No backup path provided for rollback."⟩],
         false⟩) := by
  refine ⟨?_, ?_, ?_, ?_, fun curRoot cf => rfl⟩
  · cases root with
    | none => simp [backup_current_version]
    | some cs =>
        cases cs with
        | nil => simp [backup_current_version]
        | cons p cs => simp [backup_current_version]
  · intro cs hroot hcs
    subst hroot
    have hne : cs.isEmpty = false := by
      cases cs
      · exact absurd rfl hcs
      · rfl
    simp [backup_current_version, hne]
  · intro hroot
    subst hroot
    rfl
  · intro hroot
    subst hroot
    rfl

/-- Witness for C7: a concrete non-empty root produces a timestamped
snapshot in the backup store. -/
theorem capture_option_and_restore_noop_witness :
    backup_current_version "t" (some [("index.html", FsEntry.file [0])]) [] =
      (some (BACKUP_DIR ++ "/backup_" ++ "t"),
       (BACKUP_DIR ++ "/backup_" ++ "t", [("index.html", FsEntry.file [0])]) :: []) :=
  (capture_option_and_restore_noop "t" _ []).2.1 _ rfl (List.cons_ne_nil _ _)

/-- Counterexample to claim C2 as stated: when the copy step of `rollback`
fails after the content root has been removed, the exception is caught
inside the function (`raised = false`, nothing propagates) and the root is
left removed — the claim's "propagated" part does not hold on the code. -/
theorem restore_failure_not_propagated_counterexample :
    (rollback (some "deploy_backups/backup_t")
        [("deploy_backups/backup_t", [("a", FsEntry.file [0])])]
        (some [("old", FsEntry.file [1])]) true).raised = false ∧
    (rollback (some "deploy_backups/backup_t")
        [("deploy_backups/backup_t", [("a", FsEntry.file [0])])]
        (some [("old", FsEntry.file [1])]) true).root = none :=
  ⟨rfl, rfl⟩

/-- Claim C2 as amended: when the copy step of `rollback` fails after the
removal, the failure is logged at the highest severity (`critical`), but
the exception is caught inside `rollback` and does not propagate — the
function returns normally with the content root left removed. -/
theorem restore_failure_logged_critical_not_raised (p : String)
    (store : List (String × Dir)) (root : Option Dir) :
    (rollback (some p) store root true).raised = false ∧
    LogLine.mk Severity.critical "Rollback failed" ∈
      (rollback (some p) store root true).log ∧
    (rollback (some p) store root true).root = none := by
  refine ⟨rfl, ?_, rfl⟩
  simp [rollback]

/-- Claim C4: `health_check` performs at most `retries` GET attempts; it
returns `true` iff some attempt within the bound observes status exactly
200; on the first success it returns immediately (after exactly `k + 1`
attempts when the first 200 arrives on attempt `k + 1`); when every
attempt fails it returns `false` after exactly `retries` attempts.  The
function is total over every response environment: non-200 statuses and
exceptions are absorbed by the loop, never re-raised. -/
theorem health_check_retry_semantics (responses : Nat → AttemptOutcome)
    (retries : Nat) :
    ((health_check responses retries).2 ≤ retries) ∧
    ((health_check responses retries).1 = true ↔
      ∃ i, i < retries ∧ responses i = AttemptOutcome.status 200) ∧
    (∀ k, k < retries → responses k = AttemptOutcome.status 200 →
      (∀ j, j < k → responses j ≠ AttemptOutcome.status 200) →
      health_check responses retries = (true, k + 1)) ∧
    ((∀ i, i < retries → responses i ≠ AttemptOutcome.status 200) →
      health_check responses retries = (false, retries)) := by
  refine ⟨?_, ?_, ?_, ?_⟩
  · have := healthLoop_attempts_le responses retries 0
    simpa [health_check] using this
  · have := healthLoop_true_iff responses retries 0
    simpa [health_check] using this
  · intro k hk hs hmin
    have := healthLoop_first_success responses retries 0 k hk (by simpa using hs)
      (fun j hj => by simpa using hmin j hj)
    simpa [health_check] using this
  · intro hfail
    have := healthLoop_all_fail responses retries 0
      (fun j hj => by simpa using hfail j hj)
    simpa [health_check] using this

/-- Witness for C4: with `retries = 3` and a server that returns 200 from
the second attempt on, `health_check` returns `true` after exactly 2
attempts. -/
theorem health_check_retry_semantics_witness :
    health_check
        (fun i => if i = 0 then AttemptOutcome.exn else AttemptOutcome.status 200)
        3 = (true, 2) :=
  (health_check_retry_semantics
      (fun i => if i = 0 then AttemptOutcome.exn else AttemptOutcome.status 200)
      3).2.2.1 1 (by omega) rfl
    (by
      intro j hj
      have hj0 : j = 0 := by omega
      subst hj0
      exact fun hc => absurd hc (by decide))

/-- Claim C10: with `retries = 0` the loop body never runs: no GET is
issued (0 attempts) and the check returns `false`. -/
theorem health_check_zero_retries (responses : Nat → AttemptOutcome) :
    health_check responses 0 = (false, 0) := rfl

/-- Claim C5: with no I/O fault, `deploy_files` completes; every
top-level entry whose name is in the exclusion list or begins with `'.'`
is never copied (the content root is unchanged at that name); every other
entry of the source listing is copied, fully replacing any existing entry
of the same name (directory or file) — its final value is exactly the
source entry, not a merge. -/
theorem publish_exclusion_and_replacement (items : List (String × FsEntry))
    (root_dir : String) (root : Dir) :
    (deploy_files items root_dir root (fun _ => false) =
      DeployOutcome.ok (publishFold root_dir root items) none
        ((items.filter (fun p => keptName root_dir p.1)).length)) ∧
    (∀ name, (name ∈ excludes root_dir ∨ startsWithDot name = true) →
        getEntry (publishFold root_dir root items) name = getEntry root name) ∧
    ((items.map Prod.fst).Nodup →
      ∀ name e, (name, e) ∈ items → keptName root_dir name = true →
        getEntry (publishFold root_dir root items) name = some e) := by
  refine ⟨?_, ?_, ?_⟩
  · unfold deploy_files
    rw [deployLoop_ok root_dir (fun _ => false) items root 0 (fun p _ _ => rfl)]
    rw [Nat.zero_add]
  · intro name h
    apply getEntry_publishFold_not_kept
    rcases h with h | h
    · simp [keptName, h]
    · simp [keptName, h]
  · intro hnd name e hmem hk
    exact getEntry_publishFold_mem root_dir items name e hk root hnd hmem

/-- Witness for C5: an excluded name (`.git`) present in the source is
not copied — the content root keeps its previous entry at that name. -/
theorem publish_exclusion_and_replacement_witness :
    getEntry
        (publishFold "www" [(".git", FsEntry.file [0])]
          [(".git", FsEntry.file [9]), ("index.html", FsEntry.file [1])])
        ".git" =
      getEntry [(".git", FsEntry.file [0])] ".git" :=
  (publish_exclusion_and_replacement
      [(".git", FsEntry.file [9]), ("index.html", FsEntry.file [1])]
      "www" [(".git", FsEntry.file [0])]).2.1 ".git" (Or.inl (by decide))

/-- Counterexample to claim C6 as stated: on a source listing of two
copyable entries `deploy_files` completes having copied 2 entries, yet
its Python return value is `None` (`none`), not the count `2` — the
function body has no `return` statement, it only logs the count. -/
theorem publish_return_value_counterexample :
    deploy_files
        [("index.html", FsEntry.file [60]), ("about.html", FsEntry.file [61])]
        "www" [] (fun _ => false) =
      DeployOutcome.ok
        [("index.html", FsEntry.file [60]), ("about.html", FsEntry.file [61])]
        none 2 ∧
    (none : Option Nat) ≠ some 2 :=
  ⟨rfl, by decide⟩

/-- Claim C6 as amended: `deploy_files` logs the count of copied entries
but returns no value (`None`); when an I/O error occurs while copying an
entry it aborts the remaining entries (only the kept entries before the
failing one are installed) and propagates the raw `OSError`, which
identifies the failing entry and carries no count. -/
theorem publish_count_and_error_propagation (items : List (String × FsEntry))
    (root_dir : String) (root : Dir) (failOn : String → Bool) :
    ((∀ p ∈ items, keptName root_dir p.1 = true → failOn p.1 = false) →
      deploy_files items root_dir root failOn =
        DeployOutcome.ok (publishFold root_dir root items) none
          ((items.filter (fun p => keptName root_dir p.1)).length)) ∧
    (∀ pre name e post,
      items = pre ++ (name, e) :: post →
      keptName root_dir name = true → failOn name = true →
      (∀ p ∈ pre, keptName root_dir p.1 = true → failOn p.1 = false) →
      deploy_files items root_dir root failOn =
        DeployOutcome.err (publishFold root_dir root pre)
          (OsError.oserror name)) := by
  constructor
  · intro h
    unfold deploy_files
    rw [deployLoop_ok root_dir failOn items root 0 h, Nat.zero_add]
  · intro pre name e post hitems hk hf hpre
    subst hitems
    unfold deploy_files
    rw [deployLoop_err root_dir failOn pre name e post root 0 hk hf hpre]

/-- Witness for C6 (amended): a copy fault on the second of three entries
aborts the third and propagates the raw error naming the failing entry;
the content root holds exactly the first entry. -/
theorem publish_count_and_error_propagation_witness :
    deploy_files
        [("a.html", FsEntry.file [0]), ("b.html", FsEntry.file [1]),
         ("c.html", FsEntry.file [2])]
        "www" [] (fun n => (n = "b.html" : Bool)) =
      DeployOutcome.err
        (publishFold "www" [] [("a.html", FsEntry.file [0])])
        (OsError.oserror "b.html") :=
  (publish_count_and_error_propagation
      [("a.html", FsEntry.file [0]), ("b.html", FsEntry.file [1]),
       ("c.html", FsEntry.file [2])]
      "www" [] (fun n => (n = "b.html" : Bool))).2
    [("a.html", FsEntry.file [0])] "b.html" (FsEntry.file [1])
    [("c.html", FsEntry.file [2])] rfl (by decide) (by decide)
    (by
      intro p hp _
      rcases List.mem_cons.mp hp with h1 | h1
      · subst h1
        decide
      · cases h1)

/-- Claim C8: when a listener already accepts connections on
`(host-or-loopback, port)`, `start_server` fails (returns no handle)
without ever attempting to bind, and the set of listeners is unchanged
(no new listener is created). -/
theorem start_server_port_in_use (host : String) (port : Nat) (root_dir : String)
    (listeners : List (String × Nat)) (bindFails : Bool)
    (h : (probeHost host, port) ∈ listeners) :
    (start_server host port root_dir listeners bindFails).handle = none ∧
    (start_server host port root_dir listeners bindFails).bindAttempted = false ∧
    (start_server host port root_dir listeners bindFails).listeners = listeners := by
  unfold start_server
  rw [if_pos h]
  exact ⟨rfl, rfl, rfl⟩

/-- Witness for C8: a pre-bound loopback listener on port 8000 makes
`start_server` (configured for `0.0.0.0:8000`) fail without binding. -/
theorem start_server_port_in_use_witness :
    (start_server "0.0.0.0" 8000 "www" [("127.0.0.1", 8000)] false).handle = none ∧
    (start_server "0.0.0.0" 8000 "www" [("127.0.0.1", 8000)] false).bindAttempted
      = false ∧
    (start_server "0.0.0.0" 8000 "www" [("127.0.0.1", 8000)] false).listeners =
      [("127.0.0.1", 8000)] :=
  start_server_port_in_use "0.0.0.0" 8000 "www" [("127.0.0.1", 8000)] false
    (by decide)

/-- Claim C9: `end_headers` emits every configured header with its exact
configured value on the response, merged after the default headers the
base handler buffered; on a header-name collision the configured value —
written later into the buffer — is what a latest-occurrence lookup of
the flushed header list yields. -/
theorem response_headers_injected (hs defaults : List (String × String))
    (hnd : (hs.map Prod.fst).Nodup) :
    (end_headers (some hs) defaults = defaults ++ hs) ∧
    (∀ p ∈ hs, p ∈ end_headers (some hs) defaults) ∧
    (∀ p ∈ hs, effectiveHeader (end_headers (some hs) defaults) p.1 = some p.2) := by
  refine ⟨rfl, ?_, ?_⟩
  · intro p hp
    show p ∈ defaults ++ hs
    exact List.mem_append.mpr (Or.inr hp)
  · intro p hp
    show effectiveHeader (defaults ++ hs) p.1 = some p.2
    exact effectiveHeader_append_mem defaults hs p.1 p.2 hnd hp

/-- Witness for C9: two distinct configured headers, one of which
collides with a default header — the configured values are present and
the configured value wins the lookup on the colliding name. -/
theorem response_headers_injected_witness :
    effectiveHeader
        (end_headers
          (some [("X-Frame-Options", "DENY"), ("X-Content-Type-Options", "nosniff")])
          [("Content-type", "text/html"), ("X-Frame-Options", "SAMEORIGIN")])
        "X-Frame-Options" = some "DENY" :=
  (response_headers_injected
      [("X-Frame-Options", "DENY"), ("X-Content-Type-Options", "nosniff")]
      [("Content-type", "text/html"), ("X-Frame-Options", "SAMEORIGIN")]
      (by decide)).2.2 ("X-Frame-Options", "DENY") (by decide)

/-- Counterexample to claim C1 as stated: a run in which a snapshot is
captured (the events record `backedUp (some path)`, and the snapshot of
the old root is in the store) and the server-start stage fails, yet the
process terminates with exit code 1 without any `rollbackRun` event —
the final content root holds the newly published entries
(`old.html, index.html`), not the snapshot's (`old.html` alone), so the
content root is not restored from the snapshot. -/
theorem server_start_failure_counterexample :
    (main ⟨"127.0.0.1", 8000, "www", 3⟩
        ⟨"20240101_000000", [("index.html", FsEntry.file [2])], fun _ => false,
         [("127.0.0.1", 8000)], false, false, fun _ => AttemptOutcome.exn⟩
        (some [("old.html", FsEntry.file [1])]) []).exitCode = 1 ∧
    (main ⟨"127.0.0.1", 8000, "www", 3⟩
        ⟨"20240101_000000", [("index.html", FsEntry.file [2])], fun _ => false,
         [("127.0.0.1", 8000)], false, false, fun _ => AttemptOutcome.exn⟩
        (some [("old.html", FsEntry.file [1])]) []).events =
      [StageEvent.backedUp (some "deploy_backups/backup_20240101_000000"),
       StageEvent.deployed 1, StageEvent.serverStartFailed] ∧
    (((main ⟨"127.0.0.1", 8000, "www", 3⟩
        ⟨"20240101_000000", [("index.html", FsEntry.file [2])], fun _ => false,
         [("127.0.0.1", 8000)], false, false, fun _ => AttemptOutcome.exn⟩
        (some [("old.html", FsEntry.file [1])]) []).root.getD []).map Prod.fst) =
      ["old.html", "index.html"] ∧
    (((lookupStore
        (main ⟨"127.0.0.1", 8000, "www", 3⟩
          ⟨"20240101_000000", [("index.html", FsEntry.file [2])], fun _ => false,
           [("127.0.0.1", 8000)], false, false, fun _ => AttemptOutcome.exn⟩
          (some [("old.html", FsEntry.file [1])]) []).store
        "deploy_backups/backup_20240101_000000").getD []).map Prod.fst) =
      ["old.html"] ∧
    (["old.html", "index.html"] : List String) ≠ ["old.html"] :=
  ⟨rfl, rfl, rfl, rfl, by decide⟩

/-- Claim C1 as amended: when the publish stage succeeds and the
server-start stage fails (`start_server` returns no handle, by port
probe or bind exception), the controller terminates with exit code 1
WITHOUT invoking the restore step — no `rollbackRun` transition occurs
and the content root keeps the newly published content, even when a
snapshot was captured. -/
theorem server_start_failure_no_restore (cfg : Config) (env : Env)
    (root0 : Option Dir) (store0 : List (String × Dir)) (r : Dir) (c : Nat)
    (hdeploy : deploy_files env.sourceItems cfg.root_dir (root0.getD [])
        env.deployFailOn = DeployOutcome.ok r none c)
    (hstart : (start_server cfg.host cfg.port cfg.root_dir env.listeners
        env.bindFails).handle = none) :
    (main cfg env root0 store0).exitCode = 1 ∧
    (main cfg env root0 store0).root = some r ∧
    (main cfg env root0 store0).events =
      [StageEvent.backedUp
        (backup_current_version env.timestamp (some (root0.getD [])) store0).1,
       StageEvent.deployed c, StageEvent.serverStartFailed] ∧
    (∀ p, StageEvent.rollbackRun p ∉ (main cfg env root0 store0).events) := by
  have hmain : main cfg env root0 store0 =
      ⟨1, some r,
       (backup_current_version env.timestamp (some (root0.getD [])) store0).2,
       [StageEvent.backedUp
          (backup_current_version env.timestamp (some (root0.getD [])) store0).1,
        StageEvent.deployed c, StageEvent.serverStartFailed]⟩ := by
    unfold main
    dsimp only
    rw [hdeploy]
    dsimp only
    rw [hstart]
  refine ⟨by rw [hmain], by rw [hmain], by rw [hmain], ?_⟩
  intro p
  rw [hmain]
  simp

/-- Witness for C1 (amended) at a concrete run: old content, a captured
snapshot, a pre-occupied port — the final root is the published tree. -/
theorem server_start_failure_no_restore_witness :
    (main ⟨"127.0.0.1", 8000, "www", 3⟩
        ⟨"20240101_000000", [("index.html", FsEntry.file [2])], fun _ => false,
         [("127.0.0.1", 8000)], false, false, fun _ => AttemptOutcome.exn⟩
        (some [("old.html", FsEntry.file [1])]) []).root =
      some [("old.html", FsEntry.file [1]), ("index.html", FsEntry.file [2])] :=
  (server_start_failure_no_restore
      ⟨"127.0.0.1", 8000, "www", 3⟩
      ⟨"20240101_000000", [("index.html", FsEntry.file [2])], fun _ => false,
       [("127.0.0.1", 8000)], false, false, fun _ => AttemptOutcome.exn⟩
      (some [("old.html", FsEntry.file [1])]) []
      [("old.html", FsEntry.file [1]), ("index.html", FsEntry.file [2])] 1
      rfl rfl).2.1

end Deploy
